import Mathlib

/-!
Shallow embedding of the go-rescuetime client library (src/rescuetime.go).

The repository is a Go client for the RescueTime HTTP/JSON API.  Its core is
the analytic-data response decoder `GetAnalyticData`, plus a request builder
(`structToMap`, `buildURL`), a transport guard (`getResponse`) and a fixed
daily-summary fetch (`GetDailySummary`).

Modelling conventions:
- Go `int`/`int64` values are modelled as `Int` (the decoder only moves them
  around; `json.Number.Int64` range checking is modelled explicitly).
- Post-parse JSON values (the output of `simplejson.NewJson`) are modelled by
  the inductive `JValue`.  A `json.Number` is modelled by `Option Int`:
  `some v` for an integer literal of value `v`, `none` for a literal that is
  not an integer (for example `3.5`), on which `Int64` fails.
- `time.Time` is modelled by `GoTime`: an absolute instant (Unix seconds)
  plus the attached location (name and offset east of UTC in seconds).
  Calendar accessors use the standard civil-from-days algorithm, which agrees
  with the calendar arithmetic of the Go `time` package.
- Go collaborators from the standard library that the repo calls but does not
  define (the tz database behind `time.LoadLocation`, `net/url.Parse`, the
  HTTP transport, `encoding/json.Unmarshal`) are modelled shallowly: as small
  lookup tables or as explicit function parameters, each documented at its
  definition.
- A Go runtime panic (as opposed to a returned `error`) is modelled as an
  explicit `panicked` outcome constructor, so that crashing executions are
  distinguished from both success and error returns.
-/

/-! ## JSON values (output of simplejson.NewJson) -/

/-- Post-parse JSON value as produced by `simplejson` with `UseNumber`:
numbers are `json.Number`, modelled as `Option Int` (`some v` when the
literal is an integer with value `v`, `none` otherwise). -/
inductive JValue where
  | null : JValue
  | bool (b : Bool) : JValue
  | num (n : Option Int) : JValue
  | str (s : String) : JValue
  | arr (xs : List JValue) : JValue
  | obj (fs : List (String × JValue)) : JValue

/-- Field lookup in a JSON object body; missing keys give `null`
(simplejson `Get` returns a nil-data `Json` for a missing key). -/
def jLookup (k : String) : List (String × JValue) → JValue
  | [] => .null
  | kv :: rest => if kv.1 = k then kv.2 else jLookup k rest

/-- simplejson `Get`: on a JSON object, look the key up; on anything else
the result is the nil-data `Json`, modelled as `null`. -/
def jGet (v : JValue) (k : String) : JValue :=
  match v with
  | .obj fs => jLookup k fs
  | _ => .null

/-- simplejson `MustString`: the string value, or the default `""` when the
value is not a string. -/
def mustString (v : JValue) : String :=
  match v with
  | .str s => s
  | _ => ""

/-- One element of a would-be `[]string`: simplejson `StringArray` maps a
JSON string to itself and JSON `null` to `""`, and fails on anything else. -/
def strElem (v : JValue) : Option String :=
  match v with
  | .str s => some s
  | .null => some ""
  | _ => none

/-- All elements of a would-be `[]string`, failing if any element fails. -/
def allStrings : List JValue → Option (List String)
  | [] => some []
  | x :: xs => do
    let s ← strElem x
    let ss ← allStrings xs
    return s :: ss

/-- simplejson `MustStringArray`: the decoded `[]string`, or the default
empty array when the value is not an array of strings/nulls. -/
def mustStringArray (v : JValue) : List String :=
  match v with
  | .arr xs =>
    match allStrings xs with
    | some ss => ss
    | none => []
  | _ => []

/-- simplejson `MustArray`: the array elements, or the default empty array
when the value is not an array. -/
def mustArray (v : JValue) : List JValue :=
  match v with
  | .arr xs => xs
  | _ => []

/-- Go `json.Number.Int64`: succeeds exactly on integer literals within the
signed 64-bit range (`strconv.ParseInt` semantics). -/
def int64OfNumber (n : Option Int) : Option Int :=
  match n with
  | some v => if -(2 ^ 63) ≤ v ∧ v < 2 ^ 63 then some v else none
  | none => none

/-! ## Time model (Go time package collaborator) -/

/-- Proleptic-Gregorian leap year test, as in the Go `time` package. -/
def isLeapYear (y : Int) : Bool :=
  decide (y.emod 4 = 0 ∧ (y.emod 100 ≠ 0 ∨ y.emod 400 = 0))

/-- Length of a month, as validated by Go `time.Parse`. -/
def daysInMonth (y m : Int) : Int :=
  if m = 2 then (if isLeapYear y then 29 else 28)
  else if m = 4 ∨ m = 6 ∨ m = 9 ∨ m = 11 then 30
  else 31

/-- Days since 1970-01-01 of the civil date `(y, m, d)` (standard
days-from-civil algorithm; extensionally the Go time package calendar). -/
def daysFromCivil (y m d : Int) : Int :=
  let y2 : Int := y - (if m ≤ 2 then 1 else 0)
  let era : Int := y2.fdiv 400
  let yoe : Int := y2 - era * 400
  let doy : Int := (153 * (m + (if m > 2 then -3 else 9)) + 2).fdiv 5 + d - 1
  let doe : Int := yoe * 365 + yoe.fdiv 4 - yoe.fdiv 100 + doy
  era * 146097 + doe - 719468

/-- Civil date `(y, m, d)` of the day `z` days after 1970-01-01 (standard
civil-from-days algorithm, the inverse of `daysFromCivil`). -/
def civilFromDays (z : Int) : Int × Int × Int :=
  let z2 : Int := z + 719468
  let era : Int := z2.fdiv 146097
  let doe : Int := z2 - era * 146097
  let yoe : Int := (doe - doe.fdiv 1460 + doe.fdiv 36524 - doe.fdiv 146097).fdiv 365
  let y : Int := yoe + era * 400
  let doy : Int := doe - (365 * yoe + yoe.fdiv 4 - yoe.fdiv 100)
  let mp : Int := (5 * doy + 2).fdiv 153
  let d : Int := doy - (153 * mp + 2).fdiv 5 + 1
  let m : Int := mp + (if mp < 10 then 3 else -9)
  (y + (if m ≤ 2 then 1 else 0), m, d)

/-- Go `time.Time`, modelled as the absolute instant (Unix seconds) together
with the attached `time.Location` (name and fixed offset east of UTC in
seconds; see `loadLocation` for how offsets are modelled). -/
structure GoTime where
  sec : Int
  locName : String
  locOffset : Int
deriving DecidableEq

/-- Wall-clock seconds of the instant in its attached location. -/
def GoTime.localSec (t : GoTime) : Int :=
  t.sec + t.locOffset

/-- Civil date `(year, month, day)` shown by the timestamp. -/
def GoTime.civil (t : GoTime) : Int × Int × Int :=
  civilFromDays (t.localSec.fdiv 86400)

/-- Year shown by the timestamp (Go `Time.Year`). -/
def GoTime.year (t : GoTime) : Int := t.civil.1

/-- Month shown by the timestamp (Go `Time.Month`). -/
def GoTime.month (t : GoTime) : Int := t.civil.2.1

/-- Day of month shown by the timestamp (Go `Time.Day`). -/
def GoTime.day (t : GoTime) : Int := t.civil.2.2

/-- Hour shown by the timestamp (Go `Time.Hour`). -/
def GoTime.hour (t : GoTime) : Int :=
  (t.localSec.emod 86400).fdiv 3600

/-- Minute shown by the timestamp (Go `Time.Minute`). -/
def GoTime.minute (t : GoTime) : Int :=
  (t.localSec.emod 3600).fdiv 60

/-- The timestamp with the given wall-clock fields in UTC, as produced by Go
`time.Parse` on a layout with no zone information. -/
def mkUTCTime (y mo d h mi s : Int) : GoTime :=
  { sec := daysFromCivil y mo d * 86400 + h * 3600 + mi * 60 + s
    locName := "UTC"
    locOffset := 0 }

/-- Zero value of Go `time.Time`: 0001-01-01T00:00:00 UTC. -/
def zeroGoTime : GoTime := mkUTCTime 1 1 1 0 0 0

/-- A Go `time.Location`. -/
structure GoLocation where
  name : String
  offset : Int
deriving DecidableEq

/-- Modelled collaborator: the IANA tz database behind Go
`time.LoadLocation`.  Recognized zone names map to their location; an
unrecognized name fails.  A real location has an instant-dependent offset;
this model fixes each offset to its value at the instants exercised here
(America/New_York in May 2023 observes EDT, UTC-4). -/
def loadLocation (name : String) : Option GoLocation :=
  if name = "UTC" then some { name := "UTC", offset := 0 }
  else if name = "America/New_York" then some { name := "America/New_York", offset := -14400 }
  else if name = "Europe/Berlin" then some { name := "Europe/Berlin", offset := 7200 }
  else none

/-- Go `Time.In`: keep the absolute instant, attach the given location. -/
def timeIn (t : GoTime) (loc : GoLocation) : GoTime :=
  { sec := t.sec, locName := loc.name, locOffset := loc.offset }

/-- One decimal digit of an ASCII character. -/
def dig (c : Char) : Option Int :=
  if 48 ≤ c.toNat ∧ c.toNat ≤ 57 then some ((c.toNat : Int) - 48) else none

/-- Go `time.Parse` with layout `"2006-01-02T15:04:05"`: the literal
wall-clock fields of a string of that exact shape, with the same range
validation Go performs (month 1..12, day 1..daysInMonth, hour 0..23,
minute/second 0..59).  Returns `none` where Go returns a parse error. -/
def parseFields (s : String) : Option (Int × Int × Int × Int × Int × Int) :=
  match s.toList with
  | [y1, y2, y3, y4, c1, m1, m2, c2, d1, d2, c3, h1, h2, c4, n1, n2, c5, s1, s2] =>
    if c1 = '-' ∧ c2 = '-' ∧ c3 = 'T' ∧ c4 = ':' ∧ c5 = ':' then
      match dig y1, dig y2, dig y3, dig y4, dig m1, dig m2, dig d1, dig d2,
            dig h1, dig h2, dig n1, dig n2, dig s1, dig s2 with
      | some a, some b, some c, some d, some e, some f, some g, some h,
        some i, some j, some k, some l, some m, some n =>
        let year := a * 1000 + b * 100 + c * 10 + d
        let mon := e * 10 + f
        let day := g * 10 + h
        let hour := i * 10 + j
        let minute := k * 10 + l
        let sec := m * 10 + n
        if 1 ≤ mon ∧ mon ≤ 12 ∧ 1 ≤ day ∧ day ≤ daysInMonth year mon ∧
           hour ≤ 23 ∧ minute ≤ 59 ∧ sec ≤ 59 then
          some (year, mon, day, hour, minute, sec)
        else none
      | _, _, _, _, _, _, _, _, _, _, _, _, _, _ => none
    else none
  | _ => none

/-- Go `time.Parse ("2006-01-02T15:04:05", s)`: a naive timestamp whose
wall-clock fields are the literal fields of `s`, located in UTC (the layout
carries no zone information). -/
def parseTimestamp (s : String) : Option GoTime :=
  match parseFields s with
  | some (y, mo, d, h, mi, se) => some (mkUTCTime y mo d h mi se)
  | none => none

/-! ## Header canonicalization (titleCase and the header regex) -/

/-- ASCII alphanumeric test: the character class `[0-9A-Za-z]` of
`titlingRegex` and (negated) of `headerRegex` in the source. -/
def isAlnumC (c : Char) : Bool :=
  decide ((48 ≤ c.toNat ∧ c.toNat ≤ 57) ∨ (65 ≤ c.toNat ∧ c.toNat ≤ 90) ∨
          (97 ≤ c.toNat ∧ c.toNat ≤ 122))

/-- Title-casing of a single character: ASCII lowercase letters map to the
corresponding uppercase letter, everything else is unchanged
(`unicode.ToTitle` restricted to the ASCII range of the chunks). -/
def asciiTitleChar (c : Char) : Char :=
  if 97 ≤ c.toNat ∧ c.toNat ≤ 122 then Char.ofNat (c.toNat - 32) else c

/-- Push a finished run onto the run list, dropping an empty run. -/
def pushRun (r : List Char) (rs : List (List Char)) : List (List Char) :=
  if r.isEmpty then rs else r :: rs

/-- One step (from the right) of splitting into maximal alphanumeric runs. -/
def runsStep (c : Char) (p : List Char × List (List Char)) :
    List Char × List (List Char) :=
  if isAlnumC c then (c :: p.1, p.2) else ([], pushRun p.1 p.2)

/-- Maximal runs of `[0-9A-Za-z]+` characters, in order: the chunk list
computed by `titlingRegex.FindAll` in the source `titleCase`. -/
def alnumRuns (cs : List Char) : List (List Char) :=
  let p := cs.foldr runsStep ([], [])
  pushRun p.1 p.2

/-- Go `bytes.Title` on one alphanumeric chunk: inside such a chunk only the
leading character begins a word (letters and digits are not separators), so
only it is title-cased. -/
def titleRun (r : List Char) : List Char :=
  match r with
  | [] => []
  | c :: rest => asciiTitleChar c :: rest

/-- The source `titleCase`: split into `[0-9A-Za-z]+` chunks, `bytes.Title`
each chunk, and join the chunks with nothing in between. -/
def titleCase (src : String) : String :=
  ⟨((alnumRuns src.toList).map titleRun).flatten⟩

/-- The source `headerRegex.ReplaceAllString (x, "")`: delete every
character outside `[A-Za-z0-9]`. -/
def stripNonAlnum (s : String) : String :=
  ⟨s.toList.filter isAlnumC⟩

/-- Header canonicalization as performed in `GetAnalyticData`:
`headerRegex.ReplaceAllString (titleCase s, "")`. -/
def headerCanonKey (s : String) : String :=
  stripNonAlnum (titleCase s)

/-! ## Data model -/

/-- The client value: immutable configuration holding the API key. -/
structure RescueTime where
  APIKey : String
deriving DecidableEq

/-- Parameters of the Analytic Data API.  The `field_name` wire tags of the
source struct are carried by `structToMap` below. -/
structure AnalyticDataQueryParameters where
  Perspective : String
  ResolutionTime : String
  RestrictGroup : String
  RestrictBegin : String
  RestrictEnd : String
  RestrictKind : String
  RestrictThing : String
  RestrictThingy : String
deriving DecidableEq

/-- A single row of an Analytic Data result (source type `row`).  Fields
are plain Go values; a field whose header is absent keeps its zero value. -/
structure row where
  Date : GoTime
  Rank : Int
  TimeSpentSeconds : Int
  NumberOfPeople : Int
  Person : String
  Activity : String
  Category : String
  Productivity : Int
deriving DecidableEq

/-- Zero value of the `row` struct. -/
def zeroRow : row :=
  { Date := zeroGoTime, Rank := 0, TimeSpentSeconds := 0, NumberOfPeople := 0
    Person := "", Activity := "", Category := "", Productivity := 0 }

/-- An Analytic Data API result. -/
structure AnalyticData where
  Notes : String
  RowHeaders : List String
  Rows : List row
  Parameters : Option AnalyticDataQueryParameters
deriving DecidableEq

/-- Zero value of `AnalyticData` (the `rtd` variable in the source). -/
def zeroAnalyticData : AnalyticData :=
  { Notes := "", RowHeaders := [], Rows := [], Parameters := none }

/-- Error values the client can return (Go `error` results). -/
inductive GoErr where
  | invalidURL : GoErr
  | missingAPIKey : GoErr
  | transportFailed : GoErr
  | jsonSyntax : GoErr
  | numberParse : GoErr
  | badTimestamp : GoErr
  | unknownTimezone : GoErr
deriving DecidableEq

/-! ## Analytic response decoder (GetAnalyticData body, lines 214-264) -/

/-- Outcome of decoding one column into the current row.  `failData`
corresponds to `return data, err` in the source (the partially filled
`data` value accompanies the error); `failZero` to `return rtd, err` (the
zero value accompanies the error); `panicked` to a Go runtime panic. -/
inductive ColResult where
  | set (r : row) : ColResult
  | failData (e : GoErr) : ColResult
  | failZero (e : GoErr) : ColResult
  | panicked (msg : String) : ColResult
deriving DecidableEq

/-- Decode a column into an integer field.  The source asserts
`column.(json.Number)` (panicking on any other dynamic type) and calls
`Int64`, returning `data, err` on failure. -/
def intCol (col : JValue) (upd : Int → row) : ColResult :=
  match col with
  | .num n =>
    match int64OfNumber n with
    | some v => .set (upd v)
    | none => .failData .numberParse
  | _ => .panicked "interface conversion to json.Number failed"

/-- Decode a column into a string field.  The source runs the reflective
`field.Set (reflect.ValueOf column)`, which succeeds exactly when the
dynamic type is `string` and panics otherwise. -/
def strCol (col : JValue) (upd : String → row) : ColResult :=
  match col with
  | .str s => .set (upd s)
  | _ => .panicked "reflect.Set of non-string value on string field"

/-- Decode one positional column of a row.  `hdr` is the canonicalized
header for this position; the source resolves it with
`reflect.Value.FieldByName`, which yields the zero `reflect.Value` for any
name that is not a field of `row`, and the subsequent
`field.Interface()` call panics on that zero value. -/
def decodeCol (tz : String) (hdr : String) (cur : row) (col : JValue) : ColResult :=
  match hdr with
  | "Date" =>
    match col with
    | .str s =>
      match parseTimestamp s with
      | none => .failZero .badTimestamp
      | some t =>
        if tz ≠ "" then
          match loadLocation tz with
          | none => .failZero .unknownTimezone
          | some loc => .set { cur with Date := timeIn t loc }
        else .set { cur with Date := t }
    | _ => .panicked "interface conversion to string failed"
  | "Rank" => intCol col (fun v => { cur with Rank := v })
  | "TimeSpentSeconds" => intCol col (fun v => { cur with TimeSpentSeconds := v })
  | "NumberOfPeople" => intCol col (fun v => { cur with NumberOfPeople := v })
  | "Productivity" => intCol col (fun v => { cur with Productivity := v })
  | "Person" => strCol col (fun v => { cur with Person := v })
  | "Activity" => strCol col (fun v => { cur with Activity := v })
  | "Category" => strCol col (fun v => { cur with Category := v })
  | _ => .panicked "reflect: call of reflect.Value.Interface on zero Value"

/-- Outcome of decoding all columns of one row. -/
inductive EntryOutcome where
  | ok (r : row) : EntryOutcome
  | failData (e : GoErr) : EntryOutcome
  | failZero (e : GoErr) : EntryOutcome
  | panicked (msg : String) : EntryOutcome
deriving DecidableEq

/-- The inner column loop of the source: positional decode of the columns
of one row, starting from the zero `row` value.  `hm` is the
position-to-canonical-key map (`headersMap`, defaulting to `""` beyond the
header list, as a Go map lookup does). -/
def decodeCols (hm : Nat → String) (tz : String) : Nat → row → List JValue → EntryOutcome
  | _, cur, [] => .ok cur
  | idx, cur, col :: rest =>
    match decodeCol tz (hm idx) cur col with
    | .set r => decodeCols hm tz (idx + 1) r rest
    | .failData e => .failData e
    | .failZero e => .failZero e
    | .panicked m => .panicked m

/-- Outcome of decoding the whole `rows` array. -/
inductive RowsOutcome where
  | ok (rs : List row) : RowsOutcome
  | failData (e : GoErr) : RowsOutcome
  | failZero (e : GoErr) : RowsOutcome
  | panicked (msg : String) : RowsOutcome
deriving DecidableEq

/-- The outer row loop of the source.  Each entry is asserted to be a JSON
array (`entry.([]interface{...})` panics otherwise) and decoded
column-by-column; the first error or panic aborts the loop. -/
def decodeRows (hm : Nat → String) (tz : String) : List JValue → RowsOutcome
  | [] => .ok []
  | e :: rest =>
    match e with
    | .arr cols =>
      match decodeCols hm tz 0 zeroRow cols with
      | .ok r =>
        match decodeRows hm tz rest with
        | .ok rs => .ok (r :: rs)
        | .failData e2 => .failData e2
        | .failZero e2 => .failZero e2
        | .panicked m => .panicked m
      | .failData e2 => .failData e2
      | .failZero e2 => .failZero e2
      | .panicked m => .panicked m
    | _ => .panicked "interface conversion to a value slice failed"

/-- Result of `GetAnalyticData`: a Go `(AnalyticData, error)` pair where a
nil error is `ok`, a non-nil error carries the accompanying first return
value (`err`), and a runtime panic is `panicked`. -/
inductive DecodeOutcome where
  | ok (d : AnalyticData) : DecodeOutcome
  | err (d : AnalyticData) (e : GoErr) : DecodeOutcome
  | panicked (msg : String) : DecodeOutcome
deriving DecidableEq

/-- The decoding body of `GetAnalyticData` (source lines 214-264), applied
to the parsed JSON of the response body: extract `notes` and
`row_headers`, build the positional canonical-key map, decode every row.
On the integer-decode error path the source returns the partially filled
`data` (notes, headers and parameters set, rows not yet assigned); on the
timestamp and timezone error paths it returns the zero `rtd`. -/
def decodeAnalyticJSON (tz : String) (parameters : AnalyticDataQueryParameters)
    (j : JValue) : DecodeOutcome :=
  match decodeRows
      (fun i => ((mustStringArray (jGet j "row_headers")).map headerCanonKey).getD i "")
      tz (mustArray (jGet j "rows")) with
  | .ok rs =>
    .ok { Notes := mustString (jGet j "notes")
          RowHeaders := mustStringArray (jGet j "row_headers")
          Rows := rs, Parameters := some parameters }
  | .failData e =>
    .err { Notes := mustString (jGet j "notes")
           RowHeaders := mustStringArray (jGet j "row_headers")
           Rows := [], Parameters := some parameters } e
  | .failZero e => .err zeroAnalyticData e
  | .panicked m => .panicked m

/-! ## Request builder (structToMap, buildURL) and transport guard -/

/-- The source `structToMap`, specialized to its one call site
(`*AnalyticDataQueryParameters`, all fields `string`): walk the fields in
declaration order, skip a field whose value is the empty string, and emit
the remaining values under the `field_name` wire tags. -/
def structToMap (p : AnalyticDataQueryParameters) : List (String × String) :=
  List.filter (fun kv => kv.2 ≠ "")
    [("perspective", p.Perspective), ("resolution_time", p.ResolutionTime),
     ("restrict_group", p.RestrictGroup), ("restrict_begin", p.RestrictBegin),
     ("restrict_end", p.RestrictEnd), ("restrict_kind", p.RestrictKind),
     ("restrict_thing", p.RestrictThing), ("restrict_thingy", p.RestrictThingy)]

/-- Modelled collaborator: Go `net/url.Parse`.  The model keeps the part of
the base URL before any query string and rejects a URL containing an ASCII
control character, the malformed-URL case `url.Parse` reports for the plain
absolute URLs used here.  The query part is dropped because `buildURL`
overwrites `RawQuery` wholesale. -/
def parseURL (s : String) : Option String :=
  if s.toList.any (fun c => c.toNat < 32 ∨ c.toNat = 127) then none
  else some ⟨s.toList.takeWhile (fun c => ¬ c = '?')⟩

/-- Lookup in a `url.Values` key-value map (first match). -/
def lookupVal (k : String) : List (String × String) → Option String
  | [] => none
  | kv :: rest => if kv.1 = k then some kv.2 else lookupVal k rest

/-- Go `url.Values.Set`: replace every binding of the key with the single
new value. -/
def setVal (vs : List (String × String)) (k v : String) : List (String × String) :=
  vs.filter (fun kv => ¬ kv.1 = k) ++ [(k, v)]

/-- A built request URL: the parsed base plus the final query map.
Percent-escaping and the key-sorted rendering of `url.Values.Encode` are
elided; the query is kept as the key-value map itself. -/
structure BuiltURL where
  base : String
  query : List (String × String)
deriving DecidableEq

/-- The source `buildURL`: parse the base URL (failing if malformed),
unconditionally set `key` to the API key and `format` to `"json"`
(overwriting caller-supplied values), and return the composed URL. -/
def buildURL (r : RescueTime) (baseURL : String) (urlValues : List (String × String)) :
    Except GoErr BuiltURL :=
  match parseURL baseURL with
  | none => .error .invalidURL
  | some base => .ok { base := base, query := setVal (setVal urlValues "key" r.APIKey) "format" "json" }

/-- The two fixed endpoints of the source. -/
def analyticDataURL : String := "https://www.rescuetime.com/anapi/data"

/-- The daily-summary endpoint of the source. -/
def dailySummaryURL : String := "https://www.rescuetime.com/anapi/daily_summary_feed"

/-- The source `getResponse` with the HTTP transport as an explicit
collaborator parameter `net`: an empty API key fails with the
missing-credential error before the transport is invoked.  The `Bool`
component records whether the transport (network I/O) was invoked. -/
def getResponse (r : RescueTime) (net : BuiltURL → Except GoErr String)
    (u : BuiltURL) : Except GoErr String × Bool :=
  if r.APIKey = "" then (.error .missingAPIKey, false) else (net u, true)

/-- The source `GetAnalyticData` end to end, with the HTTP transport and
the JSON parser (`simplejson.NewJson`) as explicit collaborator
parameters.  The `Bool` component records whether network I/O happened. -/
def GetAnalyticData (r : RescueTime) (timezone : String)
    (parameters : AnalyticDataQueryParameters)
    (net : BuiltURL → Except GoErr String)
    (parseJSON : String → Except GoErr JValue) : DecodeOutcome × Bool :=
  match buildURL r analyticDataURL (structToMap parameters) with
  | .error e => (.err zeroAnalyticData e, false)
  | .ok u =>
    match getResponse r net u with
    | (.error e, called) => (.err zeroAnalyticData e, called)
    | (.ok contents, called) =>
      match parseJSON contents with
      | .error e => (.err zeroAnalyticData e, called)
      | .ok j => (decodeAnalyticJSON timezone parameters j, called)

/-- The fixed-schema daily summary record.  Its ~50 statically tagged
fields are decoded by `encoding/json` with no dynamic mapping; no claim
inspects their values, so the record is carried opaquely as the raw
decoded field list (wire tag, printed value). -/
structure DailySummary where
  fields : List (String × String)

/-- The source `GetDailySummary`, with the transport and
`encoding/json.Unmarshal` as explicit collaborator parameters.  The `Bool`
component records whether network I/O happened. -/
def GetDailySummary (r : RescueTime) (net : BuiltURL → Except GoErr String)
    (unmarshalSummaries : String → Except GoErr (List DailySummary)) :
    Except GoErr (List DailySummary) × Bool :=
  match buildURL r dailySummaryURL [] with
  | .error e => (.error e, false)
  | .ok u =>
    match getResponse r net u with
    | (.error e, called) => (.error e, called)
    | (.ok contents, called) => (unmarshalSummaries contents, called)

/-! ## Shared concrete values and predicates used by the verification -/

/-- An analytic-data response body, already JSON-parsed: `notes` string,
`row_headers` string array, and a `rows` value. -/
def mkPayload (ns : String) (hs : List String) (rows : JValue) : JValue :=
  .obj [("notes", .str ns), ("row_headers", .arr (hs.map .str)), ("rows", rows)]

/-- A response body whose single column is the date column with one row. -/
def datePayload (s : String) : JValue :=
  mkPayload "" ["Date"] (.arr [.arr [.str s]])

/-- Query parameter set with every field empty (the zero value). -/
def pdefault : AnalyticDataQueryParameters := ⟨"", "", "", "", "", "", "", ""⟩

/-- The row decoded from the spec example
`headers = ["Time Spent (seconds)", "Activity", "Category", "Productivity"]`,
`row = [3600, "editor", "software", 2]`. -/
def row3 : row :=
  { Date := zeroGoTime, Rank := 0, TimeSpentSeconds := 3600, NumberOfPeople := 0
    Person := "", Activity := "editor", Category := "software", Productivity := 2 }

/-- The spec example payload for the sparse-row decode. -/
def examplePayload : JValue :=
  mkPayload "" ["Time Spent (seconds)", "Activity", "Category", "Productivity"]
    (.arr [.arr [.num (some 3600), .str "editor", .str "software", .num (some 2)]])

/-- Predicate: every character of the list is ASCII alphanumeric. -/
def allAlnum (cs : List Char) : Prop := ∀ c ∈ cs, isAlnumC c = true

theorem char_toNat_ofNatAux (n : Nat) (h : n.isValidChar) : (Char.ofNatAux n h).toNat = n := rfl

theorem char_toNat_ofNat_valid (n : Nat) (h : n.isValidChar) : (Char.ofNat n).toNat = n := by
  unfold Char.ofNat
  rw [dif_pos h]
  exact char_toNat_ofNatAux n h

theorem asciiTitleChar_toNat (c : Char) :
    (asciiTitleChar c).toNat = if 97 ≤ c.toNat ∧ c.toNat ≤ 122 then c.toNat - 32 else c.toNat := by
  unfold asciiTitleChar
  split
  · rename_i h
    rw [char_toNat_ofNat_valid _ (Or.inl (by omega))]
  · rfl

theorem isAlnumC_asciiTitleChar (c : Char) (h : isAlnumC c = true) :
    isAlnumC (asciiTitleChar c) = true := by
  unfold isAlnumC at h ⊢
  rw [decide_eq_true_iff] at h ⊢
  rw [asciiTitleChar_toNat]
  split <;> omega

theorem asciiTitleChar_idem (c : Char) :
    asciiTitleChar (asciiTitleChar c) = asciiTitleChar c := by
  unfold asciiTitleChar
  by_cases h : 97 ≤ c.toNat ∧ c.toNat ≤ 122
  · rw [if_pos h, if_neg]
    intro hcon
    rw [char_toNat_ofNat_valid _ (Or.inl (by omega))] at hcon
    omega
  · rw [if_neg h, if_neg h]

theorem foldr_runsStep_inv (cs : List Char) :
    allAlnum (cs.foldr runsStep ([], [])).1 ∧
    ∀ r ∈ (cs.foldr runsStep ([], [])).2, r ≠ [] ∧ allAlnum r := by
  induction cs with
  | nil =>
    constructor
    · intro c hc; cases hc
    · intro r hr; cases hr
  | cons c cs ih =>
    obtain ⟨ih1, ih2⟩ := ih
    rw [List.foldr_cons]
    generalize hp : cs.foldr runsStep ([], []) = p at ih1 ih2 ⊢
    unfold runsStep
    by_cases hc : isAlnumC c = true
    · rw [if_pos hc]
      refine ⟨?_, ih2⟩
      intro d hd
      rcases List.mem_cons.mp hd with h | h
      · subst h; exact hc
      · exact ih1 d h
    · rw [if_neg hc]
      refine ⟨fun d hd => absurd hd (List.not_mem_nil d), ?_⟩
      intro r hr
      unfold pushRun at hr
      by_cases he : p.1.isEmpty = true
      · rw [if_pos he] at hr
        exact ih2 r hr
      · rw [if_neg he] at hr
        rcases List.mem_cons.mp hr with h | h
        · subst h
          refine ⟨?_, ih1⟩
          intro hcon
          rw [hcon] at he
          exact he rfl
        · exact ih2 r h

theorem alnumRuns_inv (cs : List Char) :
    ∀ r ∈ alnumRuns cs, r ≠ [] ∧ allAlnum r := by
  unfold alnumRuns pushRun
  obtain ⟨h1, h2⟩ := foldr_runsStep_inv cs
  generalize hp : cs.foldr runsStep ([], []) = p at h1 h2 ⊢
  by_cases he : p.1.isEmpty = true
  · rw [if_pos he]
    exact h2
  · rw [if_neg he]
    intro r hr
    rcases List.mem_cons.mp hr with h | h
    · subst h
      refine ⟨?_, h1⟩
      intro hcon
      rw [hcon] at he
      exact he rfl
    · exact h2 r h

theorem allAlnum_titleRun (r : List Char) (h : allAlnum r) : allAlnum (titleRun r) := by
  cases r with
  | nil => intro d hd; cases hd
  | cons c t =>
    intro d hd
    unfold titleRun at hd
    rcases List.mem_cons.mp hd with h2 | h2
    · subst h2
      exact isAlnumC_asciiTitleChar c (h c (List.mem_cons_self c t))
    · exact h d (List.mem_cons_of_mem c h2)

theorem allAlnum_titleFlat (cs : List Char) :
    allAlnum ((alnumRuns cs).map titleRun).flatten := by
  intro d hd
  rw [List.mem_flatten] at hd
  obtain ⟨l, hl, hdl⟩ := hd
  rw [List.mem_map] at hl
  obtain ⟨r, hr, rfl⟩ := hl
  exact allAlnum_titleRun r (alnumRuns_inv cs r hr).2 d hdl

theorem foldr_runsStep_allAlnum (cs : List Char) (h : allAlnum cs) :
    cs.foldr runsStep ([], []) = (cs, []) := by
  induction cs with
  | nil => rfl
  | cons c t ih =>
    rw [List.foldr_cons, ih (fun d hd => h d (List.mem_cons_of_mem c hd))]
    unfold runsStep
    rw [if_pos (h c (List.mem_cons_self c t))]

theorem alnumRuns_allAlnum (cs : List Char) (h : allAlnum cs) (hne : cs ≠ []) :
    alnumRuns cs = [cs] := by
  unfold alnumRuns
  rw [foldr_runsStep_allAlnum cs h]
  unfold pushRun
  rw [if_neg]
  intro hcon
  exact hne (List.isEmpty_iff.mp hcon)

theorem titleFlat_head_fixed (cs : List Char) (c : Char) (t : List Char)
    (h : ((alnumRuns cs).map titleRun).flatten = c :: t) : asciiTitleChar c = c := by
  cases hr : alnumRuns cs with
  | nil => rw [hr] at h; cases h
  | cons r rs =>
    have hrne : r ≠ [] := (alnumRuns_inv cs r (by rw [hr]; exact List.mem_cons_self r rs)).1
    cases r with
    | nil => exact absurd rfl hrne
    | cons rc rt =>
      rw [hr] at h
      rw [List.map_cons, List.flatten_cons] at h
      unfold titleRun at h
      rw [List.cons_append] at h
      have hc : c = asciiTitleChar rc := (List.cons.injEq _ _ _ _ ▸ h).1.symm
      rw [hc]
      exact asciiTitleChar_idem rc

theorem canon_list_idem (cs : List Char) :
    ((((alnumRuns ((((alnumRuns cs).map titleRun).flatten).filter isAlnumC)).map titleRun).flatten).filter isAlnumC) =
      (((alnumRuns cs).map titleRun).flatten).filter isAlnumC := by
  have hfl : (((alnumRuns cs).map titleRun).flatten).filter isAlnumC
      = ((alnumRuns cs).map titleRun).flatten :=
    List.filter_eq_self.mpr (allAlnum_titleFlat cs)
  rw [hfl]
  cases hw : ((alnumRuns cs).map titleRun).flatten with
  | nil => rfl
  | cons c t =>
    have hall : allAlnum (c :: t) := hw ▸ allAlnum_titleFlat cs
    rw [alnumRuns_allAlnum (c :: t) hall (by intro hcon; cases hcon)]
    rw [List.map_cons, List.map_nil, List.flatten_cons, List.flatten_nil, List.append_nil]
    rw [show titleRun (c :: t) = asciiTitleChar c :: t from rfl]
    rw [titleFlat_head_fixed cs c t hw]
    exact List.filter_eq_self.mpr hall

theorem headerCanonKey_idem (s : String) :
    headerCanonKey (headerCanonKey s) = headerCanonKey s :=
  congrArg String.mk (canon_list_idem s.toList)

/-- C7: header canonicalization is a deterministic, pure and idempotent
function of the header string: applying it to an already-canonical key
returns the key unchanged, and the key is the uppercase-initial
concatenation of the alphanumeric runs of the header with every other
character stripped, for example mapping "Time Spent (seconds)" to
"TimeSpentSeconds". -/
theorem headerCanonKey_deterministic_idempotent :
    (∀ s : String, headerCanonKey (headerCanonKey s) = headerCanonKey s) ∧
    headerCanonKey "Time Spent (seconds)" = "TimeSpentSeconds" ∧
    headerCanonKey "Number of People" = "NumberOfPeople" :=
  ⟨headerCanonKey_idem, by decide, by decide⟩

/-! ## Decode-step helper lemmas -/

theorem allStrings_map_str (hs : List String) :
    allStrings (hs.map JValue.str) = some hs := by
  induction hs with
  | nil => rfl
  | cons h t ih =>
    rw [List.map_cons]
    unfold allStrings
    rw [ih]
    rfl

theorem mustStringArray_map_str (hs : List String) :
    mustStringArray (JValue.arr (hs.map JValue.str)) = hs := by
  rw [show mustStringArray (JValue.arr (hs.map JValue.str)) =
        (match allStrings (hs.map JValue.str) with | some ss => ss | none => []) from rfl]
  rw [allStrings_map_str]

theorem decodeAnalytic_step (tz : String) (params : AnalyticDataQueryParameters)
    (ns : String) (hs : List String) (rows : List JValue) :
    decodeAnalyticJSON tz params (mkPayload ns hs (.arr rows)) =
      (match decodeRows (fun i => (hs.map headerCanonKey).getD i "") tz rows with
       | .ok rs => .ok { Notes := ns, RowHeaders := hs, Rows := rs, Parameters := some params }
       | .failData e =>
         .err { Notes := ns, RowHeaders := hs, Rows := [], Parameters := some params } e
       | .failZero e => .err zeroAnalyticData e
       | .panicked m => .panicked m) := by
  unfold decodeAnalyticJSON
  rw [show jGet (mkPayload ns hs (.arr rows)) "notes" = .str ns from rfl]
  rw [show jGet (mkPayload ns hs (.arr rows)) "row_headers" = .arr (hs.map .str) from rfl]
  rw [show jGet (mkPayload ns hs (.arr rows)) "rows" = .arr rows from rfl]
  rw [mustStringArray_map_str]
  rw [show mustArray (JValue.arr rows) = rows from rfl]
  rw [show mustString (JValue.str ns) = ns from rfl]

theorem decodeRows_one (hm : Nat → String) (tz : String) (cols : List JValue) :
    decodeRows hm tz [.arr cols] =
      (match decodeCols hm tz 0 zeroRow cols with
       | .ok r => .ok [r]
       | .failData e => .failData e
       | .failZero e => .failZero e
       | .panicked m => .panicked m) := by
  cases h : decodeCols hm tz 0 zeroRow cols <;> simp [decodeRows, h]

theorem decodeCols_one (hm : Nat → String) (tz : String) (col : JValue) :
    decodeCols hm tz 0 zeroRow [col] =
      (match decodeCol tz (hm 0) zeroRow col with
       | .set r => .ok r
       | .failData e => .failData e
       | .failZero e => .failZero e
       | .panicked m => .panicked m) := by
  cases h : decodeCol tz (hm 0) zeroRow col <;> simp [decodeCols, h]

theorem decodeCol_date_str (tz : String) (cur : row) (s : String) :
    decodeCol tz "Date" cur (.str s) =
      (match parseTimestamp s with
       | none => .failZero .badTimestamp
       | some t =>
         if tz ≠ "" then
           match loadLocation tz with
           | none => .failZero .unknownTimezone
           | some loc => .set { cur with Date := timeIn t loc }
         else .set { cur with Date := t }) := rfl

theorem decodeCol_date_naive (cur : row) (s : String) (t : GoTime)
    (hts : parseTimestamp s = some t) :
    decodeCol "" "Date" cur (.str s) = .set { cur with Date := t } := by
  rw [decodeCol_date_str, hts]
  show (if ("" : String) ≠ "" then
      (match loadLocation "" with
       | none => ColResult.failZero .unknownTimezone
       | some loc2 => ColResult.set { cur with Date := timeIn t loc2 })
    else ColResult.set { cur with Date := t }) = ColResult.set { cur with Date := t }
  rw [if_neg (fun hh => hh rfl)]

theorem decodeCol_date_tz (tz : String) (cur : row) (s : String) (t : GoTime) (loc : GoLocation)
    (hts : parseTimestamp s = some t) (htz : tz ≠ "") (hloc : loadLocation tz = some loc) :
    decodeCol tz "Date" cur (.str s) = .set { cur with Date := timeIn t loc } := by
  rw [decodeCol_date_str, hts]
  show (if tz ≠ "" then
      (match loadLocation tz with
       | none => ColResult.failZero .unknownTimezone
       | some loc2 => ColResult.set { cur with Date := timeIn t loc2 })
    else ColResult.set { cur with Date := t }) = ColResult.set { cur with Date := timeIn t loc }
  rw [if_pos htz, hloc]

theorem decodeCol_date_badtz (tz : String) (cur : row) (s : String) (t : GoTime)
    (hts : parseTimestamp s = some t) (htz : tz ≠ "") (hloc : loadLocation tz = none) :
    decodeCol tz "Date" cur (.str s) = .failZero .unknownTimezone := by
  rw [decodeCol_date_str, hts]
  show (if tz ≠ "" then
      (match loadLocation tz with
       | none => ColResult.failZero .unknownTimezone
       | some loc2 => ColResult.set { cur with Date := timeIn t loc2 })
    else ColResult.set { cur with Date := t }) = ColResult.failZero .unknownTimezone
  rw [if_pos htz, hloc]

theorem decodeRows_ok_forall2 (hm : Nat → String) (tz : String) :
    ∀ (rs : List JValue) (lst : List row), decodeRows hm tz rs = .ok lst →
      List.Forall₂ (fun e r => ∃ cols, e = JValue.arr cols ∧
        decodeCols hm tz 0 zeroRow cols = .ok r) rs lst := by
  intro rs
  induction rs with
  | nil =>
    intro lst h
    rw [show decodeRows hm tz [] = .ok [] from rfl] at h
    injection h with h1
    subst h1
    exact List.Forall₂.nil
  | cons e rest ih =>
    intro lst h
    cases e with
    | arr cols =>
      rw [show decodeRows hm tz (JValue.arr cols :: rest) =
            (match decodeCols hm tz 0 zeroRow cols with
             | .ok r =>
               (match decodeRows hm tz rest with
                | .ok rs2 => RowsOutcome.ok (r :: rs2)
                | .failData e2 => .failData e2
                | .failZero e2 => .failZero e2
                | .panicked m => .panicked m)
             | .failData e2 => .failData e2
             | .failZero e2 => .failZero e2
             | .panicked m => .panicked m) from rfl] at h
      rcases hc : decodeCols hm tz 0 zeroRow cols with r | e2 | e2 | m
      all_goals rw [hc] at h
      · rcases hr : decodeRows hm tz rest with rs2 | e2 | e2 | m
        all_goals rw [hr] at h
        · injection h with h1
          subst h1
          exact List.Forall₂.cons ⟨cols, rfl, hc⟩ (ih rs2 hr)
        · exact RowsOutcome.noConfusion h
        · exact RowsOutcome.noConfusion h
        · exact RowsOutcome.noConfusion h
      · exact RowsOutcome.noConfusion h
      · exact RowsOutcome.noConfusion h
      · exact RowsOutcome.noConfusion h
    | null => exact RowsOutcome.noConfusion h
    | bool b => exact RowsOutcome.noConfusion h
    | num n => exact RowsOutcome.noConfusion h
    | str s => exact RowsOutcome.noConfusion h
    | obj fs => exact RowsOutcome.noConfusion h

/-! ## Claim theorems -/

/-- C1: the claim says a column whose canonicalized header key is not one of
the known record fields is ignored silently and decode returns successfully.
On the code, `reflect.Value.FieldByName` yields the zero `reflect.Value` for
such a key and the subsequent `field.Interface()` call panics: decoding the
payload with header list `["Foo"]` and one row `[1]` crashes instead of
succeeding.  This theorem evaluates the decoder at that failing input. -/
theorem unknown_header_column_panics :
    decodeAnalyticJSON "" pdefault (mkPayload "" ["Foo"] (.arr [.arr [.num (some 1)]])) =
      .panicked "reflect: call of reflect.Value.Interface on zero Value" := by
  decide

/-- C2 counterexample: with timezone "America/New_York" the date string
"2023-05-01T10:00:00" does NOT decode to the same wall-clock fields tagged
with the zone offset.  The code converts the instant with `Time.In`: the
decoded timestamp keeps the absolute instant 1682935200 (the naive fields
read as UTC) and shows hour 6 in New York, not the literal hour 10. -/
theorem date_timezone_instant_converted_cex :
    decodeAnalyticJSON "America/New_York" pdefault (datePayload "2023-05-01T10:00:00") =
      .ok { Notes := "", RowHeaders := ["Date"]
            Rows := [{ zeroRow with Date := ⟨1682935200, "America/New_York", -14400⟩ }]
            Parameters := some pdefault } ∧
    GoTime.hour ⟨1682935200, "America/New_York", -14400⟩ = 6 ∧
    GoTime.hour ⟨1682935200, "UTC", 0⟩ = 10 ∧
    parseTimestamp "2023-05-01T10:00:00" = some ⟨1682935200, "UTC", 0⟩ := by
  decide

/-- C2 amended: a date-column string of the format YYYY-MM-DDTHH:MM:SS with
an empty timezone argument decodes to the naive timestamp with exactly the
literal calendar fields, read in UTC; with a non-empty recognized timezone
the decoder preserves the absolute instant and attaches the zone (`Time.In`),
so the wall-clock fields are shifted by the zone offset rather than kept. -/
theorem date_decode_relocates_instant (s : String) (y mo d h mi se : Int)
    (tz : String) (loc : GoLocation)
    (hparse : parseFields s = some (y, mo, d, h, mi, se))
    (htz : tz ≠ "") (hloc : loadLocation tz = some loc) :
    decodeAnalyticJSON "" pdefault (datePayload s) =
      .ok { Notes := "", RowHeaders := ["Date"]
            Rows := [{ zeroRow with Date := mkUTCTime y mo d h mi se }]
            Parameters := some pdefault } ∧
    decodeAnalyticJSON tz pdefault (datePayload s) =
      .ok { Notes := "", RowHeaders := ["Date"]
            Rows := [{ zeroRow with Date :=
              { sec := (mkUTCTime y mo d h mi se).sec
                locName := loc.name, locOffset := loc.offset } }]
            Parameters := some pdefault } := by
  have hts : parseTimestamp s = some (mkUTCTime y mo d h mi se) := by
    unfold parseTimestamp
    rw [hparse]
  constructor
  · rw [show datePayload s = mkPayload "" ["Date"] (.arr [.arr [.str s]]) from rfl]
    rw [decodeAnalytic_step, decodeRows_one, decodeCols_one]
    rw [show ((["Date"].map headerCanonKey).getD 0 "" : String) = "Date" from rfl]
    rw [decodeCol_date_naive zeroRow s _ hts]
  · rw [show datePayload s = mkPayload "" ["Date"] (.arr [.arr [.str s]]) from rfl]
    rw [decodeAnalytic_step, decodeRows_one, decodeCols_one]
    rw [show ((["Date"].map headerCanonKey).getD 0 "" : String) = "Date" from rfl]
    rw [decodeCol_date_tz tz zeroRow s _ loc hts htz hloc]
    rfl

/-- C2 witness: the amended theorem applied at the concrete date string
"2023-05-01T10:00:00" and the zone America/New_York. -/
theorem date_decode_relocates_instant_witness :
    decodeAnalyticJSON "" pdefault (datePayload "2023-05-01T10:00:00") =
      .ok { Notes := "", RowHeaders := ["Date"]
            Rows := [{ zeroRow with Date := mkUTCTime 2023 5 1 10 0 0 }]
            Parameters := some pdefault } ∧
    decodeAnalyticJSON "America/New_York" pdefault (datePayload "2023-05-01T10:00:00") =
      .ok { Notes := "", RowHeaders := ["Date"]
            Rows := [{ zeroRow with Date :=
              { sec := (mkUTCTime 2023 5 1 10 0 0).sec
                locName := (⟨"America/New_York", -14400⟩ : GoLocation).name
                locOffset := (⟨"America/New_York", -14400⟩ : GoLocation).offset } }]
            Parameters := some pdefault } :=
  date_decode_relocates_instant "2023-05-01T10:00:00" 2023 5 1 10 0 0
    "America/New_York" ⟨"America/New_York", -14400⟩ (by decide) (by decide) (by decide)

/-- C3 counterexample: for the claimed headers and row, the fields whose
headers are absent are NOT in a distinguishable not-present state: they hold
the Go zero values.  Decoding a payload where `Rank` is present with value 0
and a payload where `Rank` is absent produce the identical row value
(`zeroRow`), so absence and a zero value cannot be told apart. -/
theorem absent_fields_zero_value_cex :
    decodeAnalyticJSON "" pdefault examplePayload =
      .ok { Notes := ""
            RowHeaders := ["Time Spent (seconds)", "Activity", "Category", "Productivity"]
            Rows := [row3], Parameters := some pdefault } ∧
    row3.Rank = 0 ∧ row3.Date = zeroGoTime ∧
    row3.Rank = zeroRow.Rank ∧ row3.Date = zeroRow.Date ∧
    decodeAnalyticJSON "" pdefault (mkPayload "" ["Rank"] (.arr [.arr [.num (some 0)]])) =
      .ok { Notes := "", RowHeaders := ["Rank"], Rows := [zeroRow], Parameters := some pdefault } ∧
    decodeAnalyticJSON "" pdefault (mkPayload "" ["Person"] (.arr [.arr [.str ""]])) =
      .ok { Notes := "", RowHeaders := ["Person"], Rows := [zeroRow], Parameters := some pdefault } := by
  decide

/-- C3 amended: for headers
["Time Spent (seconds)", "Activity", "Category", "Productivity"] and the row
[3600, "editor", "software", 2], decode yields timeSpent = 3600, activity =
"editor", category = "software", productivity = 2, and the fields whose
headers are absent (date, rank, people count, person) keep the Go zero
values of their types — there is no distinguishable not-present state. -/
theorem sparse_row_decode_zero_absent : ∀ tz : String,
    decodeAnalyticJSON tz pdefault examplePayload =
      .ok { Notes := ""
            RowHeaders := ["Time Spent (seconds)", "Activity", "Category", "Productivity"]
            Rows := [row3], Parameters := some pdefault } := by
  intro tz
  rfl

/-- C4 counterexample: a valid analytic-data payload (headers
["Mystery Column", "Rank"], one row [7, 2]) on which decode does not succeed
with one decoded row: the unknown first header makes the decoder panic. -/
theorem unknown_header_decode_not_success_cex :
    decodeAnalyticJSON "" pdefault
        (mkPayload "" ["Mystery Column", "Rank"] (.arr [.arr [.num (some 7), .num (some 2)]])) =
      .panicked "reflect: call of reflect.Value.Interface on zero Value" := by
  decide

/-- C4 amended: whenever the row loop succeeds it produces exactly one
decoded row per server row, in server order, each the positional decode of
that row; and an empty rows array always decodes to an empty row sequence
without error.  (Success requires every header hit by a row position to
canonicalize to a known field: an unknown key makes the decoder panic
instead of succeeding, see the counterexample.) -/
theorem decode_rows_count_order :
    (∀ (hm : Nat → String) (tz : String) (rs : List JValue) (lst : List row),
      decodeRows hm tz rs = .ok lst →
      lst.length = rs.length ∧
      List.Forall₂ (fun e r => ∃ cols, e = JValue.arr cols ∧
        decodeCols hm tz 0 zeroRow cols = .ok r) rs lst) ∧
    (∀ (tz : String) (params : AnalyticDataQueryParameters) (ns : String) (hs : List String),
      decodeAnalyticJSON tz params (mkPayload ns hs (.arr [])) =
        .ok { Notes := ns, RowHeaders := hs, Rows := [], Parameters := some params }) := by
  constructor
  · intro hm tz rs lst h
    have h2 := decodeRows_ok_forall2 hm tz rs lst h
    exact ⟨h2.length_eq.symm, h2⟩
  · intro tz params ns hs
    rw [decodeAnalytic_step]
    rfl

/-- C4 witness: the amended theorem applied to the concrete one-row decode
with header "Rank" and value 5. -/
theorem decode_rows_count_order_witness :
    ([{ zeroRow with Rank := 5 }] : List row).length =
      ([JValue.arr [JValue.num (some 5)]] : List JValue).length ∧
    List.Forall₂ (fun e r => ∃ cols, e = JValue.arr cols ∧
      decodeCols (fun i => (["Rank"].map headerCanonKey).getD i "") "" 0 zeroRow cols = .ok r)
      [JValue.arr [JValue.num (some 5)]] [{ zeroRow with Rank := 5 }] :=
  decode_rows_count_order.1 (fun i => (["Rank"].map headerCanonKey).getD i "") ""
    [JValue.arr [JValue.num (some 5)]] [{ zeroRow with Rank := 5 }] (by decide)

/-- C5 counterexample: on the payload with notes "n", headers ["Rank"] and
one row containing the non-integer number 3.5, the integer decode fails and
`GetAnalyticData` returns the error TOGETHER with a partially decoded value
carrying the notes and the header list, contradicting the claim that an
error return carries none of the decoded content. -/
theorem error_carries_partial_data_cex :
    decodeAnalyticJSON "" pdefault (mkPayload "n" ["Rank"] (.arr [.arr [.num none]])) =
      .err { Notes := "n", RowHeaders := ["Rank"], Rows := [], Parameters := some pdefault }
        .numberParse ∧
    ({ Notes := "n", RowHeaders := ["Rank"], Rows := [], Parameters := some pdefault } :
      AnalyticData).Notes ≠ "" := by
  decide

/-- C5 amended: an error return never carries decoded rows, and the value
accompanying an error is either the zero `AnalyticData` (timestamp and
timezone failures) or — on the integer-decode failure path — the partially
filled value holding the decoded notes, header list and parameters. -/
theorem decode_error_accompanying_value (tz : String)
    (params : AnalyticDataQueryParameters) (j : JValue) (d : AnalyticData) (e : GoErr)
    (h : decodeAnalyticJSON tz params j = .err d e) :
    d.Rows = [] ∧
    (d = zeroAnalyticData ∨
      (d.Notes = mustString (jGet j "notes") ∧
       d.RowHeaders = mustStringArray (jGet j "row_headers") ∧
       d.Parameters = some params)) := by
  unfold decodeAnalyticJSON at h
  rcases hr : decodeRows
      (fun i => ((mustStringArray (jGet j "row_headers")).map headerCanonKey).getD i "")
      tz (mustArray (jGet j "rows")) with rs | e2 | e2 | m
  all_goals rw [hr] at h
  · exact DecodeOutcome.noConfusion h
  · injection h with h1 h2
    subst h1
    exact ⟨rfl, Or.inr ⟨rfl, rfl, rfl⟩⟩
  · injection h with h1 h2
    subst h1
    exact ⟨rfl, Or.inl rfl⟩
  · exact DecodeOutcome.noConfusion h

/-- C5 witness: the amended theorem applied to the concrete failing decode
of the counterexample payload. -/
theorem decode_error_accompanying_value_witness :
    ({ Notes := "n", RowHeaders := ["Rank"], Rows := [], Parameters := some pdefault } :
        AnalyticData).Rows = [] ∧
    (({ Notes := "n", RowHeaders := ["Rank"], Rows := [], Parameters := some pdefault } :
        AnalyticData) = zeroAnalyticData ∨
      (({ Notes := "n", RowHeaders := ["Rank"], Rows := [], Parameters := some pdefault } :
          AnalyticData).Notes =
         mustString (jGet (mkPayload "n" ["Rank"] (.arr [.arr [.num none]])) "notes") ∧
       ({ Notes := "n", RowHeaders := ["Rank"], Rows := [], Parameters := some pdefault } :
          AnalyticData).RowHeaders =
         mustStringArray (jGet (mkPayload "n" ["Rank"] (.arr [.arr [.num none]])) "row_headers") ∧
       ({ Notes := "n", RowHeaders := ["Rank"], Rows := [], Parameters := some pdefault } :
          AnalyticData).Parameters = some pdefault)) :=
  decode_error_accompanying_value "" pdefault
    (mkPayload "n" ["Rank"] (.arr [.arr [.num none]]))
    { Notes := "n", RowHeaders := ["Rank"], Rows := [], Parameters := some pdefault }
    .numberParse (by decide)

/-- C6 counterexample: with the unrecognized timezone "Not/AZone" and a
payload with zero rows, decode succeeds instead of failing with the
unknown-timezone error: the timezone is only looked up while decoding an
actual date-column value. -/
theorem bad_timezone_accepted_cex :
    decodeAnalyticJSON "Not/AZone" pdefault (mkPayload "" [] (.arr [])) =
      .ok { Notes := "", RowHeaders := [], Rows := [], Parameters := some pdefault } ∧
    loadLocation "Not/AZone" = none := by
  decide

/-- C6 amended: a non-empty unrecognized timezone makes decode fail with the
unknown-timezone error only when a date-column value is actually decoded
(here: a payload whose single column is a parseable date); a payload with
zero rows decodes successfully no matter the timezone argument. -/
theorem unknown_timezone_lazy :
    (∀ (tz : String) (params : AnalyticDataQueryParameters) (s : String) (y mo d h mi se : Int),
      tz ≠ "" → loadLocation tz = none → parseFields s = some (y, mo, d, h, mi, se) →
      decodeAnalyticJSON tz params (datePayload s) = .err zeroAnalyticData .unknownTimezone) ∧
    (∀ (params : AnalyticDataQueryParameters) (ns : String) (hs : List String),
      decodeAnalyticJSON "Not/AZone" params (mkPayload ns hs (.arr [])) =
        .ok { Notes := ns, RowHeaders := hs, Rows := [], Parameters := some params }) := by
  constructor
  · intro tz params s y mo d h mi se htz hloc hparse
    have hts : parseTimestamp s = some (mkUTCTime y mo d h mi se) := by
      unfold parseTimestamp
      rw [hparse]
    rw [show datePayload s = mkPayload "" ["Date"] (.arr [.arr [.str s]]) from rfl]
    rw [decodeAnalytic_step, decodeRows_one, decodeCols_one]
    rw [show ((["Date"].map headerCanonKey).getD 0 "" : String) = "Date" from rfl]
    rw [decodeCol_date_badtz tz zeroRow s _ hts htz hloc]
  · intro params ns hs
    rw [decodeAnalytic_step]
    rfl

/-- C6 witness: the amended theorem applied at the unrecognized timezone
"Not/AZone" and the concrete date payload. -/
theorem unknown_timezone_lazy_witness :
    decodeAnalyticJSON "Not/AZone" pdefault (datePayload "2023-05-01T10:00:00") =
      .err zeroAnalyticData .unknownTimezone :=
  unknown_timezone_lazy.1 "Not/AZone" pdefault "2023-05-01T10:00:00" 2023 5 1 10 0 0
    (by decide) (by decide) (by decide)

/-- C8: for every parameter set, a parameter whose value is the empty string
is omitted from the outgoing query entirely — no key ever carries an
empty-string value — and a non-empty parameter appears under its wire name
from the static field-name table. -/
theorem structToMap_wire_params (p : AnalyticDataQueryParameters) :
    (∀ kv ∈ structToMap p, kv.2 ≠ "") ∧
    (∀ v, (("perspective", v) ∈ structToMap p ↔ v = p.Perspective ∧ v ≠ "")) ∧
    (∀ v, (("resolution_time", v) ∈ structToMap p ↔ v = p.ResolutionTime ∧ v ≠ "")) ∧
    (∀ v, (("restrict_group", v) ∈ structToMap p ↔ v = p.RestrictGroup ∧ v ≠ "")) ∧
    (∀ v, (("restrict_begin", v) ∈ structToMap p ↔ v = p.RestrictBegin ∧ v ≠ "")) ∧
    (∀ v, (("restrict_end", v) ∈ structToMap p ↔ v = p.RestrictEnd ∧ v ≠ "")) ∧
    (∀ v, (("restrict_kind", v) ∈ structToMap p ↔ v = p.RestrictKind ∧ v ≠ "")) ∧
    (∀ v, (("restrict_thing", v) ∈ structToMap p ↔ v = p.RestrictThing ∧ v ≠ "")) ∧
    (∀ v, (("restrict_thingy", v) ∈ structToMap p ↔ v = p.RestrictThingy ∧ v ≠ "")) := by
  refine ⟨?_, ?_, ?_, ?_, ?_, ?_, ?_, ?_, ?_⟩
  · intro kv hkv
    rw [structToMap, List.mem_filter] at hkv
    exact of_decide_eq_true hkv.2
  all_goals intro v
  all_goals rw [structToMap, List.mem_filter]
  all_goals simp

/-- C8 witness: the theorem applied at the parameter set whose perspective
is "overview" and all other fields empty. -/
theorem structToMap_wire_params_witness :
    ("perspective", "overview") ∈ structToMap ⟨"overview", "", "", "", "", "", "", ""⟩ :=
  ((structToMap_wire_params ⟨"overview", "", "", "", "", "", "", ""⟩).2.1 "overview").mpr
    ⟨rfl, by decide⟩

/-! ## url.Values helper lemmas -/

theorem lookupVal_append (k : String) (a b : List (String × String)) :
    lookupVal k (a ++ b) =
      (match lookupVal k a with | some v => some v | none => lookupVal k b) := by
  induction a with
  | nil => rfl
  | cons kv rest ih =>
    rw [List.cons_append]
    rw [show lookupVal k (kv :: (rest ++ b)) =
          (if kv.1 = k then some kv.2 else lookupVal k (rest ++ b)) from rfl]
    rw [show lookupVal k (kv :: rest) =
          (if kv.1 = k then some kv.2 else lookupVal k rest) from rfl]
    by_cases h : kv.1 = k
    · rw [if_pos h, if_pos h]
    · rw [if_neg h, if_neg h, ih]

theorem lookupVal_filter_ne (k k2 : String) (h : k ≠ k2) (vs : List (String × String)) :
    lookupVal k (vs.filter (fun kv => ¬ kv.1 = k2)) = lookupVal k vs := by
  induction vs with
  | nil => rfl
  | cons kv rest ih =>
    rw [List.filter_cons]
    rw [show lookupVal k (kv :: rest) =
          (if kv.1 = k then some kv.2 else lookupVal k rest) from rfl]
    by_cases hkv : kv.1 = k2
    · rw [if_neg (by simp [hkv])]
      rw [if_neg (by rw [hkv]; exact fun hh => h hh.symm)]
      exact ih
    · rw [if_pos (by simp [hkv])]
      rw [show lookupVal k (kv :: rest.filter (fun kv => ¬ kv.1 = k2)) =
            (if kv.1 = k then some kv.2
             else lookupVal k (rest.filter (fun kv => ¬ kv.1 = k2))) from rfl]
      by_cases hk : kv.1 = k
      · rw [if_pos hk, if_pos hk]
      · rw [if_neg hk, if_neg hk, ih]

theorem lookupVal_setVal_self (vs : List (String × String)) (k v : String) :
    lookupVal k (setVal vs k v) = some v := by
  unfold setVal
  rw [lookupVal_append]
  have hnone : lookupVal k (vs.filter (fun kv => ¬ kv.1 = k)) = none := by
    induction vs with
    | nil => rfl
    | cons kv rest ih =>
      rw [List.filter_cons]
      by_cases hkv : kv.1 = k
      · rw [if_neg (by simp [hkv])]
        exact ih
      · rw [if_pos (by simp [hkv])]
        rw [show lookupVal k (kv :: rest.filter (fun kv => ¬ kv.1 = k)) =
              (if kv.1 = k then some kv.2
               else lookupVal k (rest.filter (fun kv => ¬ kv.1 = k))) from rfl]
        rw [if_neg hkv]
        exact ih
  rw [hnone]
  show lookupVal k [(k, v)] = some v
  rw [show lookupVal k [(k, v)] = (if k = k then some v else lookupVal k []) from rfl]
  rw [if_pos rfl]

theorem lookupVal_setVal_ne (vs : List (String × String)) (k v k2 : String) (h : k2 ≠ k) :
    lookupVal k2 (setVal vs k v) = lookupVal k2 vs := by
  unfold setVal
  rw [lookupVal_append, lookupVal_filter_ne k2 k h]
  cases hl : lookupVal k2 vs
  · rw [show lookupVal k2 [(k, v)] = (if k = k2 then some v else lookupVal k2 []) from rfl]
    rw [if_neg (fun hh => h hh.symm)]
    rfl
  · rfl

/-- C9: the built request URL always carries `key` set to the client API key
and `format` set to "json", overwriting any caller-supplied values for those
two keys while leaving every other key unchanged; building fails exactly
when the base URL is malformed (per the modelled `net/url.Parse`), and has
no other effect. -/
theorem buildURL_sets_key_format (r : RescueTime) (baseURL : String)
    (vs : List (String × String)) :
    (∀ e, buildURL r baseURL vs = .error e ↔ (parseURL baseURL = none ∧ e = .invalidURL)) ∧
    (∀ u, buildURL r baseURL vs = .ok u →
      lookupVal "key" u.query = some r.APIKey ∧
      lookupVal "format" u.query = some "json" ∧
      (∀ k, k ≠ "key" → k ≠ "format" → lookupVal k u.query = lookupVal k vs)) := by
  cases hp : parseURL baseURL with
  | none =>
    unfold buildURL
    rw [hp]
    constructor
    · intro e
      constructor
      · intro h
        injection h with h1
        exact ⟨rfl, h1.symm⟩
      · rintro ⟨h1, h2⟩
        rw [h2]
    · intro u h
      exact Except.noConfusion h
  | some b =>
    unfold buildURL
    rw [hp]
    constructor
    · intro e
      constructor
      · intro h
        exact Except.noConfusion h
      · rintro ⟨h1, h2⟩
        exact Option.noConfusion h1
    · intro u h
      injection h with h1
      subst h1
      refine ⟨?_, ?_, ?_⟩
      · rw [show ({ base := b, query := setVal (setVal vs "key" r.APIKey) "format" "json" } :
              BuiltURL).query = setVal (setVal vs "key" r.APIKey) "format" "json" from rfl]
        rw [lookupVal_setVal_ne _ _ _ _ (by decide)]
        exact lookupVal_setVal_self vs "key" r.APIKey
      · exact lookupVal_setVal_self _ "format" "json"
      · intro k hk hf
        rw [show ({ base := b, query := setVal (setVal vs "key" r.APIKey) "format" "json" } :
              BuiltURL).query = setVal (setVal vs "key" r.APIKey) "format" "json" from rfl]
        rw [lookupVal_setVal_ne _ _ _ _ hf, lookupVal_setVal_ne _ _ _ _ hk]

/-- C9 witness: the theorem applied at a concrete client, the analytic-data
base URL, and caller values that try to set `format` themselves. -/
theorem buildURL_sets_key_format_witness :
    lookupVal "key" [("q", "1"), ("key", "KEY"), ("format", "json")] = some "KEY" ∧
    lookupVal "format" [("q", "1"), ("key", "KEY"), ("format", "json")] = some "json" := by
  have h := (buildURL_sets_key_format ⟨"KEY"⟩ analyticDataURL
      [("format", "xml"), ("q", "1")]).2
    ⟨"https://www.rescuetime.com/anapi/data", [("q", "1"), ("key", "KEY"), ("format", "json")]⟩
    (by rfl)
  exact ⟨h.1, h.2.1⟩

/-- C10: with an empty API key, both fetch operations (analytic data and
daily summary) fail with the missing-credential error, and the failure
happens before any network I/O: the transport collaborator is never
invoked (the second component of the result is `false`). -/
theorem empty_api_key_no_network (r : RescueTime) (h : r.APIKey = "") :
    ∀ (tz : String) (params : AnalyticDataQueryParameters)
      (net : BuiltURL → Except GoErr String) (parseJSON : String → Except GoErr JValue)
      (net2 : BuiltURL → Except GoErr String)
      (um : String → Except GoErr (List DailySummary)),
    GetAnalyticData r tz params net parseJSON = (.err zeroAnalyticData .missingAPIKey, false) ∧
    GetDailySummary r net2 um = (.error .missingAPIKey, false) := by
  obtain ⟨k⟩ := r
  have hk : k = "" := h
  subst hk
  intro tz params net parseJSON net2 um
  exact ⟨rfl, rfl⟩

/-- C10 witness: the theorem applied at the empty-key client with concrete
collaborator functions. -/
theorem empty_api_key_no_network_witness :
    GetAnalyticData ⟨""⟩ "" pdefault (fun _ => .ok "") (fun _ => .ok .null) =
      (.err zeroAnalyticData .missingAPIKey, false) ∧
    GetDailySummary ⟨""⟩ (fun _ => .ok "") (fun _ => .ok []) =
      (.error .missingAPIKey, false) :=
  empty_api_key_no_network ⟨""⟩ rfl "" pdefault _ _ _ _
